import Mathlib

/-!
# Verification of `discourse-email-collector` (`src/main.py`)

Shallow embedding of the fetch-and-filter engine of `src/main.py`:

* `created_at_to_utc_midnight_ts` — embeds the Python function of the same
  name (lines 33-43): parse the ISO-8601 `created_at` string, take its
  calendar date, and return the POSIX timestamp of UTC midnight of that date
  (`calendar.timegm` on a `datetime(y, m, d, tzinfo=utc)`).  Failure of
  `dateutil` parsing or of the `datetime` constructor is `none`.
* `userDecision` — the pure per-user decision body of
  `fetch_user_detail_and_filter` (lines 163-191), run after a successful,
  non-rate-limited JSON response.
* the listing pagination loop, the per-user retry loop, the gather phase and
  the final stable sort are embedded further below.

Machine integers do not overflow here (Python ints are unbounded), so numbers
are `Nat`/`Int`.  Fallible code (uncaught `KeyError`/`IndexError`/`ValueError`)
is embedded with `Except`/`Option`.
-/

namespace DiscourseCollector

/-! ### Data model

`UserSummary` is one row of the listing endpoint as used by the code
(`index["id"]`, `index["username"]`, `index["name"]`, `index["email"]`).
`DetailStatus` is the JSON object returned by `/admin/users/{id}.json` as
consumed by the code: `error_type`, `extras.wait_seconds`, `errors` (rate
limiting), and `created_at`, `external_ids`, `penalty_counts` (the decision
fields).  `Option` on a field models JSON absence (or `null` where the code
treats the two alike). -/

structure UserSummary where
  id : Nat
  username : String
  name : String
  email : String
deriving Repr, DecidableEq

structure PenaltyCounts where
  silenced : Option Int
  suspended : Option Int
deriving Repr, DecidableEq

structure DetailStatus where
  error_type : Option String
  extras_wait_seconds : Option Nat
  errors : Option (List String)
  created_at : Option String
  external_ids : Option (List (String × String))
  penalty_counts : Option PenaltyCounts
deriving Repr, DecidableEq

/-- The exported record built at lines 185-191 of `main.py`. -/
structure ListedRecord where
  username : String
  name : String
  email : String
  oidc : Option String
  created_at : String
deriving Repr, DecidableEq

/-! ### `created_at_to_utc_midnight_ts` (lines 33-43)

The Python code parses `created_at` with `dateutil`, extracts the calendar
date, and feeds UTC midnight of that date to `calendar.timegm`.  Discourse
serves `created_at` as ISO-8601 (`YYYY-MM-DDTHH:MM:SS.fffZ`), so the parse is
embedded as: read `y-m-d` from the first ten characters; the
`datetime(y, m, d)` constructor validates the ranges (year ≥ 1, month 1-12,
day within the month) and `timegm` is days-from-civil (proleptic Gregorian)
times 86400. -/

def isLeapYear (y : Nat) : Bool :=
  y % 4 == 0 && (y % 100 != 0 || y % 400 == 0)

def daysInMonth (y m : Nat) : Nat :=
  if m == 2 then (if isLeapYear y then 29 else 28)
  else if m == 4 || m == 6 || m == 9 || m == 11 then 30
  else 31

/-- Days between 1970-01-01 and `y-m-d` in the proleptic Gregorian calendar
(the value `calendar.timegm` divides into; Hinnant's civil-days algorithm,
here restricted to `y ≥ 1` which `datetime` enforces anyway). -/
def daysFromCivil (y m d : Nat) : Int :=
  let y' := if m ≤ 2 then y - 1 else y
  let era := y' / 400
  let yoe := y' % 400
  let mp := (m + 9) % 12
  let doy := (153 * mp + 2) / 5 + d - 1
  let doe := yoe * 365 + yoe / 4 - yoe / 100 + doy
  (era * 146097 + doe : Int) - 719468

/-- Decimal value of a digit run. -/
def digitsVal (ds : List Char) : Nat :=
  ds.foldl (fun a c => a * 10 + (c.toNat - 48)) 0

/-- Split a character list at every occurrence of `sep` (the `str.split`
of Python, restricted to a one-character separator). -/
def splitOnChar (sep : Char) : List Char → List (List Char)
  | [] => [[]]
  | c :: cs =>
    if c = sep then [] :: splitOnChar sep cs
    else
      match splitOnChar sep cs with
      | [] => [[c]]
      | g :: gs => (c :: g) :: gs

/-- `int(...)` on one split component: all-digit, non-empty, decimal. -/
def decDigits? (cs : List Char) : Option Nat :=
  if cs.isEmpty then none
  else if cs.all Char.isDigit then some (digitsVal cs) else none

/-- `y-m-d` read off the leading `YYYY-MM-DD` of an ISO-8601 string. -/
def parseISODate (s : String) : Option (Nat × Nat × Nat) :=
  match splitOnChar '-' (s.toList.take 10) with
  | [ys, ms, ds] =>
    match decDigits? ys, decDigits? ms, decDigits? ds with
    | some y, some m, some d => some (y, m, d)
    | _, _, _ => none
  | _ => none

def created_at_to_utc_midnight_ts (s : String) : Option Int :=
  match parseISODate s with
  | none => none
  | some (y, m, d) =>
    if 1 ≤ y ∧ 1 ≤ m ∧ m ≤ 12 ∧ 1 ≤ d ∧ d ≤ daysInMonth y m then
      some (daysFromCivil y m d * 86400)
    else none

/-! ### The per-user decision (lines 163-191)

The four observable outcomes of the decision body; the three `return None`
branches are distinguished by the distinct log lines the code emits
(`silenced=`, `PASS (new user)`, `PASS (no external_ids)`). -/

inductive Decision where
  | penalized (silenced suspended : Int)
  | tooNew
  | noExternalIds
  | included (r : ListedRecord)
deriving Repr, DecidableEq

/-- The value `fetch_user_detail_and_filter` actually returns for a decision:
`None` for the three excluded branches, the record for `included`. -/
def Decision.record : Decision → Option ListedRecord
  | .included r => some r
  | _ => none

/-- Line 163: `external_ids = status.get("external_ids") or {}`. -/
def effExternalIds (status : DetailStatus) : List (String × String) :=
  status.external_ids.getD []

/-- Line 164: `penalty_counts = status.get("penalty_counts") or {}`. -/
def effPenaltyCounts (status : DetailStatus) : PenaltyCounts :=
  status.penalty_counts.getD ⟨none, none⟩

/-- Line 166: `silenced = penalty_counts.get("silenced", 0)`. -/
def effSilenced (status : DetailStatus) : Int :=
  (effPenaltyCounts status).silenced.getD 0

/-- Line 167: `suspended = penalty_counts.get("suspended", 0)`. -/
def effSuspended (status : DetailStatus) : Int :=
  (effPenaltyCounts status).suspended.getD 0

/-- Lines 163-191 of `fetch_user_detail_and_filter`: the pure decision on a
successfully parsed, non-rate-limited `status`.  `.error` marks an uncaught
Python exception (`KeyError` on a missing `created_at`, or a `dateutil` /
`datetime` failure inside `created_at_to_utc_midnight_ts`). -/
def userDecision (cutoff_ts : Int) (index : UserSummary) (status : DetailStatus) :
    Except String Decision :=
  let external_ids := effExternalIds status
  let silenced := effSilenced status
  let suspended := effSuspended status
  if silenced ≠ 0 ∧ suspended ≠ 0 then .ok (.penalized silenced suspended)
  else
    match status.created_at with
    | none => .error "KeyError: created_at"
    | some created_at =>
      match created_at_to_utc_midnight_ts created_at with
      | none => .error "ValueError: created_at"
      | some ts =>
        if ts > cutoff_ts then .ok .tooNew
        else if external_ids = [] then .ok .noExternalIds
        else .ok (.included
          { username := index.username
            name := index.name
            email := index.email
            oidc := List.lookup "oidc" external_ids
            created_at := created_at })

/-- Lines 130-131: `cutoff_ts = _utc_timestemp if _utc_timestemp is not None
else now_ts` (with `now_ts = int(time.time())`). -/
def cutoffTs (utc_timestemp : Option Int) (now_ts : Int) : Int :=
  utc_timestemp.getD now_ts

/-! ### Wait-hint extraction from a non-JSON body (lines 111-112 / 151-152) -/

/-- `int(re.findall(r"\d+", s)[0])`: the first maximal digit run of `s`;
`none` marks the uncaught `IndexError` when `s` holds no digit. -/
def firstInt (cs : List Char) : Option Nat :=
  match cs.dropWhile (fun c => !c.isDigit) with
  | [] => none
  | rest => some (digitsVal (rest.takeWhile Char.isDigit))

/-- `lines = text.split("\n"); wait = int(re.findall(r"\d+", lines[1])[0])`:
`none` marks the uncaught `IndexError` (no second line, or no digits on it). -/
def extractWait (body : String) : Option Nat :=
  match splitOnChar '\n' body.toList with
  | _ :: second :: _ => firstInt second
  | _ => none

/-! ### The listing pagination loop (lines 95-119) -/

/-- One listing response, pre-classified the way lines 101-115 inspect it: a
JSON array of summaries; a JSON dict with a truthy `"errors"` entry (rate
limit — the `Option Nat` is `extras.wait_seconds` when present, `none` when
the `"extras"` access would raise `KeyError`); or a body on which
`response.json()` raises `JSONDecodeError`. -/
inductive ListingResp where
  | arr (entries : List UserSummary)
  | errDict (wait_seconds : Option Nat)
  | nonJson (body : String)

/-- What one loop iteration does with a listing response. -/
inductive ListStep where
  | stop
  | extend (entries : List UserSummary)
  | retry (wait : Nat)
  | exn (msg : String)
deriving Repr, DecidableEq

/-- Lines 101-115: classify one listing response.  An empty array hits
`if not resp: break`; a non-empty one is extended onto `json_data`; a rate
limit dict and a `JSONDecodeError` sleep and `continue`; `.exn` is an
uncaught exception. -/
def listingStep : ListingResp → ListStep
  | .arr [] => .stop
  | .arr es => .extend es
  | .errDict (some w) => .retry w
  | .errDict none => .exn "KeyError: extras"
  | .nonJson body =>
    match extractWait body with
    | some w => .retry w
    | none => .exn "IndexError: wait_seconds"

/-- Lines 95-119: the `while True` pagination loop.  `oracle attempt page` is
the remote's response to the run's `attempt`-th listing request, which asks
for page `page`; the loop starts at page 1 and only moves to `page + 1` after
a non-empty array.  `fuel` bounds how many iterations we observe — the Python
loop itself is unbounded, so `none` means "still running after `fuel`
iterations"; `some (.ok acc)` is the accumulated `json_data` on `break`;
`some (.error e)` is an uncaught exception. -/
def listingLoop (oracle : Nat → Nat → ListingResp) :
    Nat → Nat → Nat → List UserSummary → Option (Except String (List UserSummary))
  | 0, _, _, _ => none
  | fuel + 1, attempt, page, acc =>
    match listingStep (oracle attempt page) with
    | .stop => some (Except.ok acc)
    | .extend es => listingLoop oracle fuel (attempt + 1) (page + 1) (acc ++ es)
    | .retry _ => listingLoop oracle fuel (attempt + 1) page acc
    | .exn e => some (Except.error e)

/-! ### The per-user detail task (lines 133-191) -/

/-- One detail response: a JSON object, or a body on which `resp.json()`
raises `JSONDecodeError`. -/
inductive DetailResp where
  | ok (status : DetailStatus)
  | nonJson (body : String)

/-- What one iteration of the detail retry loop does. -/
inductive DetailStep where
  | retry (wait : Nat)
  | ret (d : Decision)
  | exn (msg : String)
deriving Repr, DecidableEq

/-- Lines 148-191: classify one detail response.  A `JSONDecodeError` body
and an `error_type == "rate_limit"` object sleep and `continue`; everything
else falls through to the decision body. -/
def detailStep (cutoff_ts : Int) (index : UserSummary) : DetailResp → DetailStep
  | .nonJson body =>
    match extractWait body with
    | some w => .retry w
    | none => .exn "IndexError: wait_seconds"
  | .ok status =>
    if status.error_type = some "rate_limit" then
      match status.extras_wait_seconds with
      | some w => .retry w
      | none => .exn "KeyError: extras"
    else
      match userDecision cutoff_ts index status with
      | .ok d => .ret d
      | .error e => .exn e

/-- How the remote behaves towards one user's detail task: either the GET
itself raises `TypeError` (caught at lines 144-146 and turned into
`return None`), or `resps attempt` is the body answering the task's
`attempt`-th request. -/
structure UserRemote where
  typeError : Bool
  resps : Nat → DetailResp

/-- `fetch_user_detail_and_filter` (lines 133-191): the per-user `while True`
retry loop, fuelled.  `some (.ok r)` — the task returned `r` (`none` = user
excluded); `some (.error e)` — the task raised `e`; `none` — still retrying
after `fuel` iterations (the Python loop is unbounded). -/
def fetch_user_detail_and_filter (cutoff_ts : Int) (index : UserSummary)
    (remote : UserRemote) : Nat → Nat → Option (Except String (Option ListedRecord))
  | 0, _ => none
  | fuel + 1, attempt =>
    if remote.typeError then some (.ok none)
    else
      match detailStep cutoff_ts index (remote.resps attempt) with
      | .retry _ => fetch_user_detail_and_filter cutoff_ts index remote fuel (attempt + 1)
      | .ret d => some (.ok d.record)
      | .exn e => some (Except.error e)

/-! ### Gathering and the final sort (lines 193-203) -/

/-- `asyncio.gather(*tasks, return_exceptions=False)` (line 198) over settled
task outcomes: if every task returned, the results in task order; if some
task raised, the exception propagates to the caller and the whole run
aborts. -/
def gather : List (Except String (Option ListedRecord)) →
    Except String (List (Option ListedRecord))
  | [] => .ok []
  | o :: rest =>
    match o with
    | .error e => .error e
    | .ok r =>
      match gather rest with
      | .error e => .error e
      | .ok rs => .ok (r :: rs)

/-- Lines 193-198 as one step: run every user's task (each must settle within
`fuel` attempts, else `none`), then gather. -/
def enrichAll (cutoff_ts : Int) (users : List (UserSummary × UserRemote))
    (fuel : Nat) : Option (Except String (List (Option ListedRecord))) :=
  match users.mapM (fun u => fetch_user_detail_and_filter cutoff_ts u.1 u.2 fuel 0) with
  | none => none
  | some outcomes => some (gather outcomes)

/-- Insert a record into an already descending list, before the first entry
whose `created_at` is not greater than its own.  Folding this over the input
(`pySortDesc`) computes exactly the stable descending order that CPython's
`list.sort(key=..., reverse=True)` produces: Python string comparison is
lexicographic on code points, which is `String.lt`. -/
def insertDesc (x : ListedRecord) : List ListedRecord → List ListedRecord
  | [] => [x]
  | y :: ys =>
    if x.created_at < y.created_at then y :: insertDesc x ys
    else x :: y :: ys

/-- Stable sort by `created_at` descending (line 200). -/
def pySortDesc : List ListedRecord → List ListedRecord
  | [] => []
  | x :: xs => insertDesc x (pySortDesc xs)

/-- Lines 199-200: `listed = [r for r in results if r is not None]` then
`listed.sort(key=lambda x: x["created_at"], reverse=True)`. -/
def finalize (results : List (Option ListedRecord)) : List ListedRecord :=
  pySortDesc (results.filterMap id)

/-! ### Concrete sample inputs used by the witnesses -/

def sampleIndex : UserSummary :=
  ⟨7, "alice", "Alice", "alice@example.org"⟩

/-- Both penalty counters non-zero; `created_at` and `external_ids` absent. -/
def samplePenalizedStatus : DetailStatus :=
  ⟨none, none, none, none, none, some ⟨some 1, some 3⟩⟩

/-- Clean counters, account created 2100-01-01. -/
def sampleNewStatus : DetailStatus :=
  ⟨none, none, none, some "2100-01-01T00:00:00.000Z", some [("oidc", "sub-1")], none⟩

/-- Clean counters, created 2023-05-01, linked `oidc` identity. -/
def sampleGoodStatus : DetailStatus :=
  ⟨none, none, none, some "2023-05-01T07:12:33.000Z", some [("oidc", "sub-1")], none⟩

/-! ### C1-C3, C10: the per-user decision -/

/-- C1: whenever the (effective) `silenced` and `suspended` counters are both
non-zero, the decision is the penalized exclusion — no `ListedRecord` is
produced — regardless of every other field, including an absent
`created_at` or `external_ids`. -/
theorem c1_penalized_excluded (cutoff_ts : Int) (index : UserSummary)
    (status : DetailStatus)
    (h1 : effSilenced status ≠ 0) (h2 : effSuspended status ≠ 0) :
    userDecision cutoff_ts index status =
      .ok (.penalized (effSilenced status) (effSuspended status)) ∧
    (userDecision cutoff_ts index status).map Decision.record = .ok none := by
  have h : userDecision cutoff_ts index status =
      .ok (.penalized (effSilenced status) (effSuspended status)) := by
    unfold userDecision
    simp [h1, h2]
  exact ⟨h, by rw [h]; rfl⟩

theorem c1_penalized_excluded_witness :
    effSilenced samplePenalizedStatus ≠ 0 ∧ effSuspended samplePenalizedStatus ≠ 0 ∧
    (userDecision 0 sampleIndex samplePenalizedStatus =
        .ok (.penalized (effSilenced samplePenalizedStatus)
          (effSuspended samplePenalizedStatus)) ∧
      (userDecision 0 sampleIndex samplePenalizedStatus).map Decision.record =
        .ok none) :=
  ⟨by decide, by decide,
    c1_penalized_excluded 0 sampleIndex samplePenalizedStatus (by decide) (by decide)⟩

/-- C2: past the penalty check, with `ts` the UTC-midnight timestamp of
`created_at`'s calendar date, the user is excluded whenever `ts` is strictly
greater than the cutoff; and the cutoff defaults to `now_ts` when no explicit
timestamp is supplied. -/
theorem c2_too_new_excluded (utc_timestemp : Option Int) (now_ts : Int)
    (index : UserSummary) (status : DetailStatus) (ca : String) (ts : Int)
    (hpen : ¬ (effSilenced status ≠ 0 ∧ effSuspended status ≠ 0))
    (hca : status.created_at = some ca)
    (hts : created_at_to_utc_midnight_ts ca = some ts)
    (hgt : ts > cutoffTs utc_timestemp now_ts) :
    userDecision (cutoffTs utc_timestemp now_ts) index status = .ok .tooNew ∧
    (userDecision (cutoffTs utc_timestemp now_ts) index status).map Decision.record =
      .ok none ∧
    cutoffTs none now_ts = now_ts := by
  have h : userDecision (cutoffTs utc_timestemp now_ts) index status = .ok .tooNew := by
    unfold userDecision
    simp [hpen, hca, hts, hgt]
  exact ⟨h, by rw [h]; rfl, rfl⟩

theorem c2_too_new_excluded_witness :
    ¬ (effSilenced sampleNewStatus ≠ 0 ∧ effSuspended sampleNewStatus ≠ 0) ∧
    sampleNewStatus.created_at = some "2100-01-01T00:00:00.000Z" ∧
    created_at_to_utc_midnight_ts "2100-01-01T00:00:00.000Z" = some 4102444800 ∧
    (4102444800 : Int) > cutoffTs (some 1700000000) 0 ∧
    (userDecision (cutoffTs (some 1700000000) 0) sampleIndex sampleNewStatus =
        .ok .tooNew ∧
      (userDecision (cutoffTs (some 1700000000) 0) sampleIndex sampleNewStatus).map
          Decision.record = .ok none ∧
      cutoffTs none 0 = 0) :=
  ⟨by decide, rfl, by decide, by decide,
    c2_too_new_excluded (some 1700000000) 0 sampleIndex sampleNewStatus
      "2100-01-01T00:00:00.000Z" 4102444800 (by decide) rfl (by decide) (by decide)⟩

/-- C3: a user that passes all three checks is included, with `oidc` the
`external_ids` entry for key `"oidc"` (`some` when present, `none` when
absent) and `username`/`name`/`email` taken from the `UserSummary`. -/
theorem c3_included_record (cutoff_ts : Int) (index : UserSummary)
    (status : DetailStatus) (ca : String) (ts : Int)
    (hpen : ¬ (effSilenced status ≠ 0 ∧ effSuspended status ≠ 0))
    (hca : status.created_at = some ca)
    (hts : created_at_to_utc_midnight_ts ca = some ts)
    (hle : ¬ ts > cutoff_ts)
    (hext : effExternalIds status ≠ []) :
    userDecision cutoff_ts index status = .ok (.included
      { username := index.username
        name := index.name
        email := index.email
        oidc := List.lookup "oidc" (effExternalIds status)
        created_at := ca }) := by
  unfold userDecision
  simp [hpen, hca, hts, hle, hext]

theorem c3_included_record_witness :
    ¬ (effSilenced sampleGoodStatus ≠ 0 ∧ effSuspended sampleGoodStatus ≠ 0) ∧
    sampleGoodStatus.created_at = some "2023-05-01T07:12:33.000Z" ∧
    created_at_to_utc_midnight_ts "2023-05-01T07:12:33.000Z" = some 1682899200 ∧
    ¬ (1682899200 : Int) > 1682899200 ∧
    effExternalIds sampleGoodStatus ≠ [] ∧
    userDecision 1682899200 sampleIndex sampleGoodStatus = .ok (.included
      { username := sampleIndex.username
        name := sampleIndex.name
        email := sampleIndex.email
        oidc := List.lookup "oidc" (effExternalIds sampleGoodStatus)
        created_at := "2023-05-01T07:12:33.000Z" }) :=
  ⟨by decide, rfl, by decide, by decide, by decide,
    c3_included_record 1682899200 sampleIndex sampleGoodStatus
      "2023-05-01T07:12:33.000Z" 1682899200 (by decide) rfl (by decide) (by decide)
      (by decide)⟩

/-- C10: an absent (or `null`) `penalty_counts`, and absent `silenced` /
`suspended` keys, are read as zero, so such a user is never the penalized
exclusion (and the penalty check raises nothing); an absent (or `null`)
`external_ids` is read as the empty mapping and behaves exactly like an
explicit empty one: with otherwise-passing fields the user is excluded at the
identity-link check, not by an error. -/
theorem c10_missing_fields_defaults (cutoff_ts : Int) (index : UserSummary)
    (status : DetailStatus) :
    (status.penalty_counts = none →
      effSilenced status = 0 ∧ effSuspended status = 0) ∧
    ((effPenaltyCounts status).silenced = none → effSilenced status = 0) ∧
    ((effPenaltyCounts status).suspended = none → effSuspended status = 0) ∧
    (effSilenced status = 0 ∨ effSuspended status = 0 →
      ∀ s u : Int, userDecision cutoff_ts index status ≠ .ok (.penalized s u)) ∧
    (status.external_ids = none →
      effExternalIds status = [] ∧
      userDecision cutoff_ts index status =
        userDecision cutoff_ts index { status with external_ids := some [] } ∧
      (∀ ca ts, status.created_at = some ca →
        created_at_to_utc_midnight_ts ca = some ts → ¬ ts > cutoff_ts →
        ¬ (effSilenced status ≠ 0 ∧ effSuspended status ≠ 0) →
        userDecision cutoff_ts index status = .ok .noExternalIds)) := by
  refine ⟨?_, ?_, ?_, ?_, ?_⟩
  · intro h
    simp [effSilenced, effSuspended, effPenaltyCounts, h]
  · intro h
    simp [effSilenced, h]
  · intro h
    simp [effSuspended, h]
  · intro h s u
    have hcond : ¬ (effSilenced status ≠ 0 ∧ effSuspended status ≠ 0) := by
      rcases h with h | h
      · exact fun hc => hc.1 h
      · exact fun hc => hc.2 h
    unfold userDecision
    simp only [if_neg hcond]
    split
    · simp
    · split
      · simp
      · split
        · simp
        · split
          · simp
          · simp
  · intro h
    have he : effExternalIds status = [] := by simp [effExternalIds, h]
    refine ⟨he, ?_, ?_⟩
    · unfold userDecision
      simp [effExternalIds, effSilenced, effSuspended, effPenaltyCounts, h]
    · intro ca ts hca hts hgt hpen
      unfold userDecision
      simp [hpen, hca, hts, hgt, he]

theorem c10_missing_fields_defaults_witness :
    effSilenced samplePenalizedStatus ≠ 0 ∧
    (let status : DetailStatus := ⟨none, none, none,
        some "2023-05-01T07:12:33.000Z", none, none⟩
     status.penalty_counts = none ∧ status.external_ids = none ∧
     effSilenced status = 0 ∧ effSuspended status = 0 ∧
     (∀ s u : Int, userDecision 1682899200 sampleIndex status ≠ .ok (.penalized s u)) ∧
     userDecision 1682899200 sampleIndex status = .ok .noExternalIds) := by
  refine ⟨by decide, rfl, rfl, ?_, ?_, ?_, ?_⟩
  · exact ((c10_missing_fields_defaults 1682899200 sampleIndex _).1 rfl).1
  · exact ((c10_missing_fields_defaults 1682899200 sampleIndex _).1 rfl).2
  · exact (c10_missing_fields_defaults 1682899200 sampleIndex _).2.2.2.1
      (Or.inl (((c10_missing_fields_defaults 1682899200 sampleIndex _).1 rfl).1))
  · exact ((c10_missing_fields_defaults 1682899200 sampleIndex _).2.2.2.2 rfl).2.2
      "2023-05-01T07:12:33.000Z" 1682899200 rfl (by decide) (by decide) (by decide)

/-! ### C4: the final sort (lines 199-200)

Python's `list.sort` is stable, and `reverse=True` keeps equal-key elements
in arrival order.  `pySortDesc` computes that order; the lemmas below prove
it sorted (descending), a permutation of its input, and stable in the
filter-per-key sense: for every key, the records carrying that key appear in
the output exactly in their input order. -/

theorem insertDesc_perm (x : ListedRecord) (l : List ListedRecord) :
    List.Perm (insertDesc x l) (x :: l) := by
  induction l with
  | nil => exact List.Perm.refl _
  | cons y ys ih =>
    unfold insertDesc
    split
    · exact List.Perm.trans (List.Perm.cons y ih) (List.Perm.swap x y ys)
    · exact List.Perm.refl _

theorem pySortDesc_perm (l : List ListedRecord) :
    List.Perm (pySortDesc l) l := by
  induction l with
  | nil => exact List.Perm.refl _
  | cons x xs ih =>
    exact List.Perm.trans (insertDesc_perm x (pySortDesc xs)) (List.Perm.cons x ih)

theorem sorted_insertDesc (x : ListedRecord) (l : List ListedRecord)
    (h : List.Sorted (fun a b : ListedRecord => b.created_at ≤ a.created_at) l) :
    List.Sorted (fun a b : ListedRecord => b.created_at ≤ a.created_at)
      (insertDesc x l) := by
  induction l with
  | nil => simp [insertDesc]
  | cons y ys ih =>
    rw [List.sorted_cons] at h
    unfold insertDesc
    split
    · rename_i hlt
      rw [List.sorted_cons]
      refine ⟨?_, ih h.2⟩
      intro b hb
      have hb2 : b ∈ x :: ys := (insertDesc_perm x ys).mem_iff.mp hb
      rcases List.mem_cons.mp hb2 with hbx | hby
      · subst hbx
        exact le_of_lt hlt
      · exact h.1 b hby
    · rename_i hnlt
      rw [List.sorted_cons]
      refine ⟨?_, List.sorted_cons.mpr h⟩
      intro b hb
      rcases List.mem_cons.mp hb with hbx | hby
      · subst hbx
        exact not_lt.mp hnlt
      · exact le_trans (h.1 b hby) (not_lt.mp hnlt)

theorem pySortDesc_sorted (l : List ListedRecord) :
    List.Sorted (fun a b : ListedRecord => b.created_at ≤ a.created_at)
      (pySortDesc l) := by
  induction l with
  | nil => simp [pySortDesc]
  | cons x xs ih => exact sorted_insertDesc x (pySortDesc xs) ih

theorem filter_insertDesc_eq (k : String) (x : ListedRecord)
    (l : List ListedRecord) (hx : x.created_at = k) :
    (insertDesc x l).filter (fun r => r.created_at == k) =
      x :: l.filter (fun r => r.created_at == k) := by
  induction l with
  | nil => simp [insertDesc, List.filter, hx]
  | cons y ys ih =>
    unfold insertDesc
    split
    · rename_i hlt
      have hy : (y.created_at == k) = false := by
        apply beq_false_of_ne
        intro hek
        rw [hx] at hlt
        rw [hek] at hlt
        exact lt_irrefl _ hlt
      simp only [List.filter, hy]
      exact ih
    · simp [List.filter, hx]

theorem filter_insertDesc_ne (k : String) (x : ListedRecord)
    (l : List ListedRecord) (hx : x.created_at ≠ k) :
    (insertDesc x l).filter (fun r => r.created_at == k) =
      l.filter (fun r => r.created_at == k) := by
  induction l with
  | nil => simp [insertDesc, List.filter, beq_false_of_ne hx]
  | cons y ys ih =>
    unfold insertDesc
    split
    · simp only [List.filter]
      rw [ih]
    · simp [List.filter, beq_false_of_ne hx]

theorem pySortDesc_filter (k : String) (l : List ListedRecord) :
    (pySortDesc l).filter (fun r => r.created_at == k) =
      l.filter (fun r => r.created_at == k) := by
  induction l with
  | nil => rfl
  | cons x xs ih =>
    show (insertDesc x (pySortDesc xs)).filter _ = _
    by_cases hx : x.created_at = k
    · rw [filter_insertDesc_eq k x (pySortDesc xs) hx, ih]
      simp [List.filter, hx]
    · rw [filter_insertDesc_ne k x (pySortDesc xs) hx, ih]
      simp [List.filter, beq_false_of_ne hx]

/-- C4: the returned sequence is sorted by `created_at` descending, it is a
permutation of the kept records, and the sort is stable: for every key, the
records with that `created_at` appear in the output exactly in their original
arrival order. -/
theorem c4_sorted_descending_stable (results : List (Option ListedRecord)) :
    List.Sorted (fun a b : ListedRecord => b.created_at ≤ a.created_at)
      (finalize results) ∧
    List.Perm (finalize results) (results.filterMap id) ∧
    ∀ k : String, (finalize results).filter (fun r => r.created_at == k) =
      (results.filterMap id).filter (fun r => r.created_at == k) :=
  ⟨pySortDesc_sorted _, pySortDesc_perm _, fun k => pySortDesc_filter k _⟩

/-! ### C5: pagination — termination structure of the listing loop -/

/-- Against a remote that always answers with the same non-empty page, the
listing loop is still running after any number of iterations. -/
theorem listingLoop_const_nonempty (u : UserSummary) :
    ∀ (fuel attempt page : Nat) (acc : List UserSummary),
      listingLoop (fun _ _ => .arr [u]) fuel attempt page acc = none := by
  intro fuel
  induction fuel with
  | zero => intro _ _ _; rfl
  | succ n ih =>
    intro attempt page acc
    exact ih (attempt + 1) (page + 1) (acc ++ [u])

/-- C5 counterexample: the code has no hard page-count ceiling.  Against a
remote that never returns an empty page the listing loop never terminates:
no iteration bound makes it produce a result. -/
theorem c5_no_page_ceiling_counterexample :
    ¬ ∃ fuel : Nat,
      (listingLoop (fun _ _ => ListingResp.arr [sampleIndex]) fuel 0 1 []).isSome := by
  rintro ⟨fuel, h⟩
  rw [listingLoop_const_nonempty sampleIndex fuel 0 1 []] at h
  simp at h

/-- Generalized pagination run: starting from page `p ≤ k` against a pure
page oracle whose pages `p..k-1` are non-empty and whose page `k` is empty,
the loop stops at page `k` with the accumulated concatenation. -/
theorem listingLoop_pages (pages : Nat → List UserSummary) (k : Nat) :
    ∀ (fuel p attempt : Nat) (acc : List UserSummary),
      p ≤ k → (∀ i, p ≤ i → i < k → pages i ≠ []) → pages k = [] →
      k - p < fuel →
      listingLoop (fun _ page => .arr (pages page)) fuel attempt p acc =
        some (.ok (acc ++ ((List.range' p (k - p)).map pages).flatten)) := by
  intro fuel
  induction fuel with
  | zero =>
    intro p attempt acc hpk hne hk hlt
    omega
  | succ n ih =>
    intro p attempt acc hpk hne hk hlt
    by_cases hpe : p = k
    · subst hpe
      show (match listingStep (.arr (pages p)) with
        | .stop => some (Except.ok acc)
        | .extend es =>
          listingLoop (fun _ page => .arr (pages page)) n (attempt + 1) (p + 1) (acc ++ es)
        | .retry _ => listingLoop (fun _ page => .arr (pages page)) n (attempt + 1) p acc
        | .exn e => some (Except.error e)) = _
      rw [hk]
      simp [listingStep]
    · have hplt : p < k := lt_of_le_of_ne hpk hpe
      have hnep : pages p ≠ [] := hne p le_rfl hplt
      show (match listingStep (.arr (pages p)) with
        | .stop => some (Except.ok acc)
        | .extend es =>
          listingLoop (fun _ page => .arr (pages page)) n (attempt + 1) (p + 1) (acc ++ es)
        | .retry _ => listingLoop (fun _ page => .arr (pages page)) n (attempt + 1) p acc
        | .exn e => some (Except.error e)) = _
      cases hp : pages p with
      | nil => exact absurd hp hnep
      | cons a as =>
        show listingLoop (fun _ page => .arr (pages page)) n (attempt + 1) (p + 1)
            (acc ++ (a :: as)) = _
        rw [ih (p + 1) (attempt + 1) (acc ++ (a :: as)) hplt
          (fun i hi1 hi2 => hne i (Nat.le_of_succ_le hi1) hi2) hk (by omega)]
        have hk' : k - p = (k - (p + 1)) + 1 := by omega
        rw [hk', List.range'_succ]
        simp [hp]

/-- C5 (amended: the code has no page-count ceiling): with no snapshot file,
pages are requested with numbers incrementing from 1, all returned entries
accumulate in order, and the loop terminates exactly at the first empty page
`k`, returning the concatenation of pages `1..k-1`.  (Termination is only
guaranteed when an empty page eventually arrives: see the counterexample.) -/
theorem c5_pagination_terminates_on_empty (pages : Nat → List UserSummary)
    (k fuel : Nat) (h1 : 1 ≤ k) (hk : pages k = [])
    (hne : ∀ i, 1 ≤ i → i < k → pages i ≠ []) (hfuel : k - 1 < fuel) :
    listingLoop (fun _ page => .arr (pages page)) fuel 0 1 [] =
      some (.ok (((List.range' 1 (k - 1)).map pages).flatten)) := by
  have h := listingLoop_pages pages k fuel 1 0 [] h1 hne hk hfuel
  simpa using h

def samplePages : Nat → List UserSummary :=
  fun i => if i = 1 then [sampleIndex] else []

theorem c5_pagination_terminates_on_empty_witness :
    1 ≤ 2 ∧ samplePages 2 = [] ∧
    (∀ i, 1 ≤ i → i < 2 → samplePages i ≠ []) ∧ 2 - 1 < 3 ∧
    listingLoop (fun _ page => .arr (samplePages page)) 3 0 1 [] =
      some (.ok (((List.range' 1 (2 - 1)).map samplePages).flatten)) := by
  refine ⟨by decide, rfl, ?_, by decide, ?_⟩
  · intro i h1 h2
    have : i = 1 := by omega
    subst this
    simp [samplePages]
  · exact c5_pagination_terminates_on_empty samplePages 2 3 (by decide) rfl
      (by intro i h1 h2
          have : i = 1 := by omega
          subst this
          simp [samplePages])
      (by decide)

/-! ### C6: rate-limit handling -/

/-- C6 counterexample: a rate-limit body that is not JSON and carries no
integer on a second line (e.g. a bare `"Too Many Requests"` page) makes the
listing phase raise an uncaught `IndexError` to its caller instead of
sleeping and retrying. -/
theorem c6_unparsable_body_raises_counterexample :
    listingLoop (fun _ _ => ListingResp.nonJson "Too Many Requests") 1 0 1 [] =
      some (.error "IndexError: wait_seconds") := rfl

/-- Under perpetual rate limiting the listing loop never finishes and never
raises: it retries without a cap. -/
theorem listingLoop_all_retry (oracle : Nat → Nat → ListingResp)
    (h : ∀ a p, ∃ w, listingStep (oracle a p) = .retry w) :
    ∀ (fuel attempt page : Nat) (acc : List UserSummary),
      listingLoop oracle fuel attempt page acc = none := by
  intro fuel
  induction fuel with
  | zero => intro _ _ _; rfl
  | succ n ih =>
    intro attempt page acc
    obtain ⟨w, hw⟩ := h attempt page
    show (match listingStep (oracle attempt page) with
      | .stop => some (Except.ok acc)
      | .extend es => listingLoop oracle n (attempt + 1) (page + 1) (acc ++ es)
      | .retry _ => listingLoop oracle n (attempt + 1) page acc
      | .exn e => some (Except.error e)) = none
    rw [hw]
    exact ih (attempt + 1) page acc

/-- Under perpetual rate limiting the detail task never finishes and never
raises: it retries without a cap. -/
theorem detailLoop_all_retry (cutoff_ts : Int) (index : UserSummary)
    (remote : UserRemote) (hte : remote.typeError = false)
    (h : ∀ att, ∃ w, detailStep cutoff_ts index (remote.resps att) = .retry w) :
    ∀ fuel att, fetch_user_detail_and_filter cutoff_ts index remote fuel att = none := by
  intro fuel
  induction fuel with
  | zero => intro _; rfl
  | succ n ih =>
    intro att
    obtain ⟨w, hw⟩ := h att
    show (if remote.typeError then some (Except.ok none)
      else match detailStep cutoff_ts index (remote.resps att) with
        | .retry _ => fetch_user_detail_and_filter cutoff_ts index remote n (att + 1)
        | .ret d => some (.ok d.record)
        | .exn e => some (Except.error e)) = none
    rw [hte, hw]
    show fetch_user_detail_and_filter cutoff_ts index remote n (att + 1) = none
    exact ih (att + 1)

/-- C6 (amended): a structured rate-limit payload that carries its
`extras.wait_seconds` — a truthy `errors` dict on the listing side,
`error_type == "rate_limit"` on the detail side — and a non-JSON body whose
second line holds an integer, all make the fetcher sleep for the indicated
wait and retry the same request, indefinitely with no retry cap.  (A
malformed body without such an integer instead raises: see the
counterexample.) -/
theorem c6_rate_limit_retry (cutoff_ts : Int) (index : UserSummary) :
    (∀ w : Nat, listingStep (.errDict (some w)) = .retry w) ∧
    (∀ (body : String) (w : Nat), extractWait body = some w →
      listingStep (.nonJson body) = .retry w) ∧
    (∀ (status : DetailStatus) (w : Nat), status.error_type = some "rate_limit" →
      status.extras_wait_seconds = some w →
      detailStep cutoff_ts index (.ok status) = .retry w) ∧
    (∀ (body : String) (w : Nat), extractWait body = some w →
      detailStep cutoff_ts index (.nonJson body) = .retry w) ∧
    (∀ oracle : Nat → Nat → ListingResp,
      (∀ a p, ∃ w, listingStep (oracle a p) = .retry w) →
      ∀ fuel attempt page acc, listingLoop oracle fuel attempt page acc = none) ∧
    (∀ remote : UserRemote, remote.typeError = false →
      (∀ att, ∃ w, detailStep cutoff_ts index (remote.resps att) = .retry w) →
      ∀ fuel att,
        fetch_user_detail_and_filter cutoff_ts index remote fuel att = none) := by
  refine ⟨fun w => rfl, ?_, ?_, ?_, listingLoop_all_retry, detailLoop_all_retry cutoff_ts index⟩
  · intro body w h
    show (match extractWait body with
      | some w => ListStep.retry w
      | none => ListStep.exn "IndexError: wait_seconds") = ListStep.retry w
    rw [h]
  · intro status w h1 h2
    show (if status.error_type = some "rate_limit" then
        match status.extras_wait_seconds with
        | some w => DetailStep.retry w
        | none => DetailStep.exn "KeyError: extras"
      else
        match userDecision cutoff_ts index status with
        | .ok d => DetailStep.ret d
        | .error e => DetailStep.exn e) = DetailStep.retry w
    rw [if_pos h1, h2]
  · intro body w h
    show (match extractWait body with
      | some w => DetailStep.retry w
      | none => DetailStep.exn "IndexError: wait_seconds") = DetailStep.retry w
    rw [h]

def sampleRateLimitedRemote : UserRemote :=
  ⟨false, fun _ => .ok ⟨some "rate_limit", some 2, some ["slow down"], none, none, none⟩⟩

theorem c6_rate_limit_retry_witness :
    listingStep (.errDict (some 5)) = .retry 5 ∧
    extractWait "Rate limited.\nRetry in 7 seconds." = some 7 ∧
    listingStep (.nonJson "Rate limited.\nRetry in 7 seconds.") = .retry 7 ∧
    detailStep 0 sampleIndex (sampleRateLimitedRemote.resps 0) = .retry 2 ∧
    listingLoop (fun _ _ => .errDict (some 2)) 9 0 1 [] = none ∧
    fetch_user_detail_and_filter 0 sampleIndex sampleRateLimitedRemote 9 0 = none := by
  refine ⟨(c6_rate_limit_retry 0 sampleIndex).1 5, by decide, ?_, ?_, ?_, ?_⟩
  · exact (c6_rate_limit_retry 0 sampleIndex).2.1 "Rate limited.\nRetry in 7 seconds." 7
      (by decide)
  · exact (c6_rate_limit_retry 0 sampleIndex).2.2.1
      ⟨some "rate_limit", some 2, some ["slow down"], none, none, none⟩ 2 rfl rfl
  · exact (c6_rate_limit_retry 0 sampleIndex).2.2.2.2.1 (fun _ _ => .errDict (some 2))
      (fun a p => ⟨2, rfl⟩) 9 0 1 []
  · exact (c6_rate_limit_retry 0 sampleIndex).2.2.2.2.2 sampleRateLimitedRemote rfl
      (fun att => ⟨2, rfl⟩) 9 0

/-! ### C7: what a failing task does to the run (lines 140-146, 193-199) -/

def sampleIndex2 : UserSummary :=
  ⟨8, "bob", "Bob", "bob@example.org"⟩

/-- A detail payload with no `created_at` at all: reading it raises
`KeyError` inside the task. -/
def sampleBadPayloadRemote : UserRemote :=
  ⟨false, fun _ => .ok ⟨none, none, none, none, some [("oidc", "x")], none⟩⟩

def sampleGoodRemote : UserRemote :=
  ⟨false, fun _ => .ok sampleGoodStatus⟩

/-- C7 counterexample: a malformed detail payload in one task is NOT
contained — `asyncio.gather(..., return_exceptions=False)` re-raises it and
the whole run aborts, although the sibling task on its own settles to an
included record. -/
theorem c7_sibling_abort_counterexample :
    enrichAll 1682899200
        [(sampleIndex, sampleBadPayloadRemote), (sampleIndex2, sampleGoodRemote)] 1 =
      some (.error "KeyError: created_at") ∧
    fetch_user_detail_and_filter 1682899200 sampleIndex2 sampleGoodRemote 1 0 =
      some (.ok (some
        { username := "bob"
          name := "Bob"
          email := "bob@example.org"
          oidc := some "sub-1"
          created_at := "2023-05-01T07:12:33.000Z" })) := by
  exact ⟨rfl, rfl⟩

/-- C7 (amended): only a `TypeError` raised by the GET itself (a
caller-supplied bad identifier) is contained at the task boundary and
converted into the "exclude this user" outcome `None`.  When no task raises,
the gather collects every task's result; but any task that raised — e.g. on
a malformed detail payload — propagates its exception through
`asyncio.gather(return_exceptions=False)` and aborts the whole run. -/
theorem c7_error_containment (cutoff_ts : Int) (index : UserSummary) :
    (∀ (remote : UserRemote) (fuel att : Nat), remote.typeError = true →
      fetch_user_detail_and_filter cutoff_ts index remote (fuel + 1) att =
        some (.ok none)) ∧
    (∀ rs : List (Option ListedRecord), gather (rs.map Except.ok) = .ok rs) ∧
    (∀ (outcomes : List (Except String (Option ListedRecord))) (e : String),
      Except.error e ∈ outcomes → ∃ e2, gather outcomes = .error e2) := by
  refine ⟨?_, ?_, ?_⟩
  · intro remote fuel att h
    show (if remote.typeError then some (Except.ok none)
      else match detailStep cutoff_ts index (remote.resps att) with
        | .retry _ => fetch_user_detail_and_filter cutoff_ts index remote fuel (att + 1)
        | .ret d => some (Except.ok d.record)
        | .exn e => some (Except.error e)) = some (Except.ok none)
    rw [h]
    rfl
  · intro rs
    induction rs with
    | nil => rfl
    | cons r rest ih =>
      show gather (Except.ok r :: rest.map Except.ok) = _
      simp [gather, ih]
  · intro outcomes
    induction outcomes with
    | nil => intro e h; exact absurd h (List.not_mem_nil _)
    | cons o rest ih =>
      intro e h
      rcases List.mem_cons.mp h with ho | hrest
      · subst ho
        exact ⟨e, rfl⟩
      · obtain ⟨e2, he2⟩ := ih e hrest
        cases o with
        | error e3 => exact ⟨e3, rfl⟩
        | ok r => exact ⟨e2, by simp [gather, he2]⟩

theorem c7_error_containment_witness :
    (⟨true, fun _ => DetailResp.nonJson ""⟩ : UserRemote).typeError = true ∧
    fetch_user_detail_and_filter 0 sampleIndex ⟨true, fun _ => DetailResp.nonJson ""⟩ 1 0 =
      some (.ok none) ∧
    gather ([some
      { username := "bob"
        name := "Bob"
        email := "bob@example.org"
        oidc := some "sub-1"
        created_at := "2023-05-01T07:12:33.000Z" }].map Except.ok) =
      .ok [some
      { username := "bob"
        name := "Bob"
        email := "bob@example.org"
        oidc := some "sub-1"
        created_at := "2023-05-01T07:12:33.000Z" }] ∧
    Except.error "boom" ∈ ([Except.error "boom"] : List (Except String (Option ListedRecord))) ∧
    (∃ e2, gather ([Except.error "boom"] : List (Except String (Option ListedRecord))) =
      .error e2) :=
  ⟨rfl,
    (c7_error_containment 0 sampleIndex).1 ⟨true, fun _ => DetailResp.nonJson ""⟩ 0 0 rfl,
    (c7_error_containment 0 sampleIndex).2.1 _,
    List.mem_singleton.mpr rfl,
    (c7_error_containment 0 sampleIndex).2.2 [Except.error "boom"] "boom"
      (List.mem_singleton.mpr rfl)⟩

/-! ### C9: the bounded admission gate (lines 129-146)

`sem = asyncio.Semaphore(concurrency)` is the one shared counter, and every
task wraps its GET in `async with sem`.  The enrichment phase is modelled as
a transition system: each task is `waiting` (at the acquire), `fetching`
(inside the gate, GET in flight), `processing` (after the release: parsing /
rate-limit sleeping / deciding), or `finished`; `processing` may loop back to
`waiting` (the retry `continue` of the `while True`).  An acquire is enabled
only while the counter is positive and decrements it; leaving the
`async with` increments it — exactly the asyncio counting semaphore. -/

inductive TaskPhase where
  | waiting
  | fetching
  | processing
  | finished
deriving Repr, DecidableEq

structure EnrichState where
  sem : Nat
  phases : List TaskPhase
deriving Repr, DecidableEq

/-- Line 129 and 193-196: gate full, every task created and waiting. -/
def initEnrich (concurrency numTasks : Nat) : EnrichState :=
  ⟨concurrency, List.replicate numTasks .waiting⟩

inductive EnrichStep : EnrichState → EnrichState → Prop where
  | acquire (s : EnrichState) (i : Nat) (hi : s.phases[i]? = some .waiting)
      (hs : 0 < s.sem) :
      EnrichStep s ⟨s.sem - 1, s.phases.set i .fetching⟩
  | release (s : EnrichState) (i : Nat) (hi : s.phases[i]? = some .fetching) :
      EnrichStep s ⟨s.sem + 1, s.phases.set i .processing⟩
  | retry (s : EnrichState) (i : Nat) (hi : s.phases[i]? = some .processing) :
      EnrichStep s ⟨s.sem, s.phases.set i .waiting⟩
  | finish (s : EnrichState) (i : Nat) (hi : s.phases[i]? = some .processing) :
      EnrichStep s ⟨s.sem, s.phases.set i .finished⟩

def EnrichReach (s t : EnrichState) : Prop :=
  Relation.ReflTransGen EnrichStep s t

/-- Number of detail fetches currently executing (tasks inside the gate). -/
def inFlight (s : EnrichState) : Nat :=
  s.phases.count .fetching

theorem count_fetching_set (l : List TaskPhase) (i : Nat) (a b : TaskPhase)
    (h : l[i]? = some b) :
    (l.set i a).count .fetching + (if b = .fetching then 1 else 0) =
      l.count .fetching + (if a = .fetching then 1 else 0) := by
  induction l generalizing i with
  | nil => simp at h
  | cons x xs ih =>
    cases i with
    | zero =>
      simp only [List.getElem?_cons_zero, Option.some.injEq] at h
      subst h
      simp only [List.set_cons_zero, List.count_cons]
      by_cases hx : x = TaskPhase.fetching <;> by_cases ha : a = TaskPhase.fetching <;>
        simp [hx, ha]
    | succ n =>
      simp only [List.getElem?_cons_succ] at h
      simp only [List.set_cons_succ, List.count_cons]
      have := ih n h
      omega

theorem enrich_invariant (concurrency numTasks : Nat) (s : EnrichState)
    (h : EnrichReach (initEnrich concurrency numTasks) s) :
    inFlight s + s.sem = concurrency := by
  induction h with
  | refl =>
    have hz : ∀ n : Nat, (List.replicate n TaskPhase.waiting).count .fetching = 0 := by
      intro n
      induction n with
      | zero => rfl
      | succ m ihm => simpa [List.replicate_succ, List.count_cons] using ihm
    simp [initEnrich, inFlight, hz]
  | tail hr hstep ih =>
    cases hstep with
    | acquire i hi hs =>
      rename_i t
      have hc := count_fetching_set t.phases i .fetching .waiting hi
      simp only [inFlight] at ih ⊢
      simp only [if_pos rfl] at hc
      simp at hc
      omega
    | release i hi =>
      rename_i t
      have hc := count_fetching_set t.phases i .processing .fetching hi
      simp only [inFlight] at ih ⊢
      simp at hc
      omega
    | retry i hi =>
      rename_i t
      have hc := count_fetching_set t.phases i .waiting .processing hi
      simp only [inFlight] at ih ⊢
      simp at hc
      omega
    | finish i hi =>
      rename_i t
      have hc := count_fetching_set t.phases i .finished .processing hi
      simp only [inFlight] at ih ⊢
      simp at hc
      omega

/-- C9: in every state the enrichment phase can reach, at most `concurrency`
detail fetches execute at once — the single counting gate `sem` enforces
`inFlight + sem = concurrency`, so the fan-out is never unbounded. -/
theorem c9_bounded_in_flight (concurrency numTasks : Nat) (s : EnrichState)
    (h : EnrichReach (initEnrich concurrency numTasks) s) :
    inFlight s ≤ concurrency := by
  have := enrich_invariant concurrency numTasks s h
  omega

theorem c9_bounded_in_flight_witness :
    EnrichReach (initEnrich 8 3)
      ⟨8 - 1, (List.replicate 3 TaskPhase.waiting).set 0 .fetching⟩ ∧
    inFlight ⟨8 - 1, (List.replicate 3 TaskPhase.waiting).set 0 .fetching⟩ ≤ 8 := by
  have hstep : EnrichStep (initEnrich 8 3)
      ⟨8 - 1, (List.replicate 3 TaskPhase.waiting).set 0 .fetching⟩ :=
    EnrichStep.acquire (initEnrich 8 3) 0 rfl (by decide)
  exact ⟨Relation.ReflTransGen.single hstep,
    c9_bounded_in_flight 8 3 _ (Relation.ReflTransGen.single hstep)⟩

/-! ### C8: the snapshot cache (lines 89-93 and 121-123)

`json.dump(json_data, f, indent=4, ensure_ascii=False)` writes the listing as
a pretty-printed JSON array (4-space indent, `": "` / `",\n"` separators,
non-ASCII kept literal, `"`/`\`/control characters escaped) and `json.load`
reads it back.  The printer below produces exactly that canonical text for
the summary records, and the parser reads that canonical snapshot format;
the round-trip theorem is `load (dump users) = users`. -/

def hexDigitChar (n : Nat) : Char :=
  if n < 10 then Char.ofNat (48 + n) else Char.ofNat (87 + n)

/-- Python `json`'s string escaping with `ensure_ascii=False`: only `"`, `\`
and control characters below 0x20 are escaped (`\n`/`\t`/`\r`/`\b`/`\f`
short forms, `\u00XX` otherwise); everything else is kept literal. -/
def escapeChar (c : Char) : List Char :=
  if c = '"' then ['\\', '"']
  else if c = '\\' then ['\\', '\\']
  else if c = '\n' then ['\\', 'n']
  else if c = '\t' then ['\\', 't']
  else if c = '\r' then ['\\', 'r']
  else if c.toNat = 8 then ['\\', 'b']
  else if c.toNat = 12 then ['\\', 'f']
  else if c.toNat < 32 then
    ['\\', 'u', '0', '0', hexDigitChar (c.toNat / 16), hexDigitChar (c.toNat % 16)]
  else [c]

def escapeList : List Char → List Char
  | [] => []
  | c :: cs => escapeChar c ++ escapeList cs

/-- A JSON string literal: `"` + escaped content + `"`. -/
def jstr (s : String) : List Char :=
  '"' :: (escapeList s.toList ++ ['"'])

def hexVal (c : Char) : Option Nat :=
  if 48 ≤ c.toNat ∧ c.toNat ≤ 57 then some (c.toNat - 48)
  else if 97 ≤ c.toNat ∧ c.toNat ≤ 102 then some (c.toNat - 87)
  else if 65 ≤ c.toNat ∧ c.toNat ≤ 70 then some (c.toNat - 55)
  else none

/-- Decode an escaped JSON string body up to its closing quote, returning the
decoded characters and the remaining input. -/
def parseStringBody : List Char → Option (List Char × List Char)
  | [] => none
  | c :: rest =>
    if c = '"' then some ([], rest)
    else if c = '\\' then
      match rest with
      | [] => none
      | e :: rest2 =>
        if e = '"' then (parseStringBody rest2).map (fun p => ('"' :: p.1, p.2))
        else if e = '\\' then (parseStringBody rest2).map (fun p => ('\\' :: p.1, p.2))
        else if e = 'n' then (parseStringBody rest2).map (fun p => ('\n' :: p.1, p.2))
        else if e = 't' then (parseStringBody rest2).map (fun p => ('\t' :: p.1, p.2))
        else if e = 'r' then (parseStringBody rest2).map (fun p => ('\r' :: p.1, p.2))
        else if e = 'b' then (parseStringBody rest2).map (fun p => (Char.ofNat 8 :: p.1, p.2))
        else if e = 'f' then (parseStringBody rest2).map (fun p => (Char.ofNat 12 :: p.1, p.2))
        else if e = 'u' then
          match rest2 with
          | h1 :: h2 :: h3 :: h4 :: rest3 =>
            match hexVal h1, hexVal h2, hexVal h3, hexVal h4 with
            | some v1, some v2, some v3, some v4 =>
              (parseStringBody rest3).map
                (fun p => (Char.ofNat (((v1 * 16 + v2) * 16 + v3) * 16 + v4) :: p.1, p.2))
            | _, _, _, _ => none
          | _ => none
        else none
    else (parseStringBody rest).map (fun p => (c :: p.1, p.2))

def parseJString : List Char → Option (String × List Char)
  | [] => none
  | c :: rest =>
    if c = '"' then (parseStringBody rest).map (fun p => (String.mk p.1, p.2))
    else none

/-- Decimal printer for `Nat` (`fuel` only drives the recursion; `n + 1` is
always enough fuel). -/
def natCharsAux : Nat → Nat → List Char → List Char
  | 0, _, acc => acc
  | fuel + 1, n, acc =>
    if n < 10 then Char.ofNat (48 + n % 10) :: acc
    else natCharsAux fuel (n / 10) (Char.ofNat (48 + n % 10) :: acc)

def natChars (n : Nat) : List Char :=
  natCharsAux (n + 1) n []

def parseNat (l : List Char) : Option (Nat × List Char) :=
  match l.takeWhile Char.isDigit with
  | [] => none
  | ds => some (digitsVal ds, l.dropWhile Char.isDigit)

/-- Consume exactly the literal `lit` from the front of the input. -/
def expectLit : List Char → List Char → Option (List Char)
  | [], input => some input
  | c :: cs, input =>
    match input with
    | [] => none
    | d :: ds => if d = c then expectLit cs ds else none

/-- The fixed chunks of the pretty-printed object: 4-space indented braces,
8-space indented keys, `": "` key separator — `"    {"`, `"id"`, ... spelled
as character lists. -/
def objHead : List Char :=
  [' ', ' ', ' ', ' ', '\x7b', '\n', ' ', ' ', ' ', ' ', ' ', ' ', ' ', ' ',
   '"', 'i', 'd', '"', ':', ' ']

def keyUsername : List Char :=
  [',', '\n', ' ', ' ', ' ', ' ', ' ', ' ', ' ', ' ',
   '"', 'u', 's', 'e', 'r', 'n', 'a', 'm', 'e', '"', ':', ' ']

def keyName : List Char :=
  [',', '\n', ' ', ' ', ' ', ' ', ' ', ' ', ' ', ' ',
   '"', 'n', 'a', 'm', 'e', '"', ':', ' ']

def keyEmail : List Char :=
  [',', '\n', ' ', ' ', ' ', ' ', ' ', ' ', ' ', ' ',
   '"', 'e', 'm', 'a', 'i', 'l', '"', ':', ' ']

def objTail : List Char :=
  ['\n', ' ', ' ', ' ', ' ', '\x7d']

/-- One summary record as `json.dump(..., indent=4, ensure_ascii=False)`
prints it. -/
def dumpUser (u : UserSummary) : List Char :=
  objHead ++ natChars u.id ++ keyUsername ++ jstr u.username ++
    keyName ++ jstr u.name ++ keyEmail ++ jstr u.email ++ objTail

def dumpItems : List UserSummary → List Char
  | [] => []
  | [u] => dumpUser u
  | u :: v :: rest => dumpUser u ++ ',' :: '\n' :: dumpItems (v :: rest)

/-- Line 122: `json.dump(json_data, f, indent=4, ensure_ascii=False)`. -/
def serializeUsers (users : List UserSummary) : String :=
  match users with
  | [] => String.mk ['[', ']']
  | _ => String.mk ('[' :: '\n' :: (dumpItems users ++ ['\n', ']']))

def parseUserObj (input : List Char) : Option (UserSummary × List Char) :=
  (expectLit objHead input).bind fun r1 =>
  (parseNat r1).bind fun pid =>
  (expectLit keyUsername pid.2).bind fun r2 =>
  (parseJString r2).bind fun pun =>
  (expectLit keyName pun.2).bind fun r3 =>
  (parseJString r3).bind fun pnm =>
  (expectLit keyEmail pnm.2).bind fun r4 =>
  (parseJString r4).bind fun pem =>
  (expectLit objTail pem.2).map fun r5 =>
  (⟨pid.1, pun.1, pnm.1, pem.1⟩, r5)

def parseItemsAux : Nat → List Char → Option (List UserSummary × List Char)
  | 0, _ => none
  | fuel + 1, input =>
    (parseUserObj input).bind fun p =>
      match p.2 with
      | ',' :: '\n' :: rest2 =>
        (parseItemsAux fuel rest2).map (fun q => (p.1 :: q.1, q.2))
      | '\n' :: ']' :: rest2 => some ([p.1], rest2)
      | _ => none

/-- Line 92: `json.load(f)` on the snapshot file (the canonical format the
program itself wrote). -/
def parseUsers (s : String) : Option (List UserSummary) :=
  match s.toList with
  | ['[', ']'] => some []
  | '[' :: '\n' :: rest =>
    (parseItemsAux rest.length rest).bind fun p =>
      if p.2 = [] then some p.1 else none
  | _ => none

/-- Lines 89-123: the cache-or-fetch decision.  The `Bool` records whether
the listing endpoint was invoked at all: `os.path.exists` decides once, a
present snapshot is loaded and used verbatim, and only the missing-snapshot
path runs the pagination loop. -/
def loadOrFetch (snapshot : Option String) (oracle : Nat → Nat → ListingResp)
    (fuel : Nat) : Option (Except String (List UserSummary)) × Bool :=
  match snapshot with
  | some contents =>
    (some (match parseUsers contents with
      | some users => .ok users
      | none => .error "JSONDecodeError: snapshot"), false)
  | none => (listingLoop oracle fuel 0 1 [], true)

/-! #### Round-trip lemmas for the snapshot format -/

theorem toList_mk (l : List Char) : (String.mk l).toList = l := rfl

theorem mk_toList (s : String) : String.mk s.toList = s := rfl

theorem expectLit_append (lit rest : List Char) :
    expectLit lit (lit ++ rest) = some rest := by
  induction lit with
  | nil => rfl
  | cons c cs ih => simp [expectLit, ih]

theorem toNat_digitChar (d : Nat) (h : d < 10) :
    (Char.ofNat (48 + d)).toNat = 48 + d := by
  interval_cases d <;> decide

theorem isDigit_digitChar (d : Nat) (h : d < 10) :
    (Char.ofNat (48 + d)).isDigit = true := by
  interval_cases d <;> decide

theorem natCharsAux_acc (fuel : Nat) :
    ∀ (n : Nat) (acc : List Char), n < fuel →
      natCharsAux fuel n acc = natCharsAux fuel n [] ++ acc := by
  induction fuel with
  | zero => intro n acc h; omega
  | succ f ih =>
    intro n acc h
    by_cases h10 : n < 10
    · simp [natCharsAux, h10]
    · simp only [natCharsAux, h10, if_false]
      have hlt : n / 10 < f := by omega
      rw [ih (n / 10) (Char.ofNat (48 + n % 10) :: acc) hlt,
          ih (n / 10) (Char.ofNat (48 + n % 10) :: []) hlt]
      simp

theorem natCharsAux_fuel (fuel1 : Nat) :
    ∀ (fuel2 n : Nat) (acc : List Char), n < fuel1 → n < fuel2 →
      natCharsAux fuel1 n acc = natCharsAux fuel2 n acc := by
  induction fuel1 with
  | zero => intro _ n _ h _; omega
  | succ f ih =>
    intro fuel2 n acc h1 h2
    cases fuel2 with
    | zero => omega
    | succ f2 =>
      by_cases h10 : n < 10
      · simp [natCharsAux, h10]
      · simp only [natCharsAux, h10, if_false]
        exact ih f2 (n / 10) _ (by omega) (by omega)

theorem natChars_lt (n : Nat) (h : n < 10) :
    natChars n = [Char.ofNat (48 + n % 10)] := by
  simp [natChars, natCharsAux, h]

theorem natChars_ge (n : Nat) (h : ¬ n < 10) :
    natChars n = natChars (n / 10) ++ [Char.ofNat (48 + n % 10)] := by
  have step : natCharsAux (n + 1) n [] =
      natCharsAux n (n / 10) [Char.ofNat (48 + n % 10)] := by
    simp only [natCharsAux, h, if_false]
  unfold natChars
  rw [step, natCharsAux_fuel n (n / 10 + 1) (n / 10) _ (by omega) (by omega),
      natCharsAux_acc (n / 10 + 1) (n / 10) _ (by omega)]

theorem natChars_digits (n : Nat) : ∀ c ∈ natChars n, c.isDigit = true := by
  induction n using Nat.strong_induction_on with
  | _ n ih =>
    by_cases h10 : n < 10
    · rw [natChars_lt n h10]
      intro c hc
      simp at hc
      subst hc
      exact isDigit_digitChar (n % 10) (by omega)
    · rw [natChars_ge n h10]
      intro c hc
      rcases List.mem_append.mp hc with hm | hm
      · exact ih (n / 10) (by omega) c hm
      · simp at hm
        subst hm
        exact isDigit_digitChar (n % 10) (by omega)

theorem natChars_ne_nil (n : Nat) : natChars n ≠ [] := by
  by_cases h10 : n < 10
  · rw [natChars_lt n h10]; simp
  · rw [natChars_ge n h10]; simp

theorem digitsVal_append_digit (xs : List Char) (c : Char) :
    digitsVal (xs ++ [c]) = 10 * digitsVal xs + (c.toNat - 48) := by
  simp [digitsVal, List.foldl_append]
  omega

theorem digitsVal_natChars (n : Nat) : digitsVal (natChars n) = n := by
  induction n using Nat.strong_induction_on with
  | _ n ih =>
    by_cases h10 : n < 10
    · rw [natChars_lt n h10]
      simp [digitsVal]
      rw [toNat_digitChar (n % 10) (by omega)]
      omega
    · rw [natChars_ge n h10, digitsVal_append_digit, ih (n / 10) (by omega),
          toNat_digitChar (n % 10) (by omega)]
      omega

theorem takeWhile_dropWhile_digits (l1 l2 : List Char)
    (h1 : ∀ c ∈ l1, c.isDigit = true)
    (h2 : ∀ c, l2.head? = some c → c.isDigit = false) :
    (l1 ++ l2).takeWhile Char.isDigit = l1 ∧
      (l1 ++ l2).dropWhile Char.isDigit = l2 := by
  induction l1 with
  | nil =>
    simp only [List.nil_append]
    cases l2 with
    | nil => simp
    | cons c cs =>
      have hc := h2 c rfl
      simp [List.takeWhile_cons, List.dropWhile_cons, hc]
  | cons d ds ih =>
    have hd := h1 d (List.mem_cons_self d ds)
    have ihr := ih (fun c hc => h1 c (List.mem_cons_of_mem d hc))
    simp [List.takeWhile_cons, List.dropWhile_cons, hd, ihr.1, ihr.2]

theorem parseNat_natChars (n : Nat) (l2 : List Char)
    (h2 : ∀ c, l2.head? = some c → c.isDigit = false) :
    parseNat (natChars n ++ l2) = some (n, l2) := by
  obtain ⟨ht, hd⟩ := takeWhile_dropWhile_digits (natChars n) l2 (natChars_digits n) h2
  unfold parseNat
  rw [ht, hd]
  cases hnc : natChars n with
  | nil => exact absurd hnc (natChars_ne_nil n)
  | cons c cs =>
    show some (digitsVal (c :: cs), l2) = some (n, l2)
    rw [← hnc, digitsVal_natChars]

theorem hexVal_hexDigitChar (d : Nat) (h : d < 16) :
    hexVal (hexDigitChar d) = some d := by
  interval_cases d <;> decide

theorem parseStringBody_escapeChar (c : Char) (tail : List Char) :
    parseStringBody (escapeChar c ++ tail) =
      (parseStringBody tail).map (fun p => (c :: p.1, p.2)) := by
  unfold escapeChar
  split_ifs with h1 h2 h3 h4 h5 h6 h7 h8
  · subst h1
    conv_lhs => rw [parseStringBody.eq_def]
    simp
  · subst h2
    conv_lhs => rw [parseStringBody.eq_def]
    simp
  · subst h3
    conv_lhs => rw [parseStringBody.eq_def]
    simp
  · subst h4
    conv_lhs => rw [parseStringBody.eq_def]
    simp
  · subst h5
    conv_lhs => rw [parseStringBody.eq_def]
    simp
  · have hc : Char.ofNat 8 = c := by
      have h0 := Char.ofNat_toNat c
      rw [h6] at h0
      exact h0
    conv_lhs => rw [parseStringBody.eq_def]
    simp
    rw [hc]
  · have hc : Char.ofNat 12 = c := by
      have h0 := Char.ofNat_toNat c
      rw [h7] at h0
      exact h0
    conv_lhs => rw [parseStringBody.eq_def]
    simp
    rw [hc]
  · have hhi := hexVal_hexDigitChar (c.toNat / 16) (by omega)
    have hlo := hexVal_hexDigitChar (c.toNat % 16) (by omega)
    have h0 : hexVal '0' = some 0 := by decide
    have hval : c.toNat / 16 * 16 + c.toNat % 16 = c.toNat := by omega
    conv_lhs => rw [parseStringBody.eq_def]
    simp [h0, hhi, hlo]
    rw [hval, Char.ofNat_toNat]
  · conv_lhs => rw [parseStringBody.eq_def]
    simp [h1, h2]

theorem parseStringBody_escapeList (cs : List Char) (rest : List Char) :
    parseStringBody (escapeList cs ++ ('"' :: rest)) = some (cs, rest) := by
  induction cs with
  | nil =>
    show parseStringBody ('"' :: rest) = some ([], rest)
    conv_lhs => rw [parseStringBody.eq_def]
    simp
  | cons c cs ih =>
    show parseStringBody ((escapeChar c ++ escapeList cs) ++ ('"' :: rest)) = _
    rw [List.append_assoc, parseStringBody_escapeChar, ih]
    rfl

theorem parseJString_jstr (s : String) (rest : List Char) :
    parseJString (jstr s ++ rest) = some (s, rest) := by
  show parseJString ('"' :: ((escapeList s.toList ++ ['"']) ++ rest)) = _
  rw [List.append_assoc, List.singleton_append]
  simp [parseJString, parseStringBody_escapeList, mk_toList]

theorem head_cons_not_digit (h : Char) (t X : List Char)
    (hd : h.isDigit = false) :
    ∀ c, ((h :: t) ++ X).head? = some c → c.isDigit = false := by
  intro c hc
  have hh : some h = some c := hc
  injection hh with he
  rw [← he]
  exact hd

theorem parseUserObj_dumpUser (u : UserSummary) (rest : List Char) :
    parseUserObj (dumpUser u ++ rest) = some (u, rest) := by
  have hk : ∀ X : List Char, ∀ c, (keyUsername ++ X).head? = some c →
      c.isDigit = false :=
    fun X => head_cons_not_digit ',' _ X rfl
  unfold dumpUser parseUserObj
  simp only [List.append_assoc]
  rw [expectLit_append, Option.some_bind, parseNat_natChars u.id _ (hk _),
    Option.some_bind, expectLit_append, Option.some_bind, parseJString_jstr,
    Option.some_bind, expectLit_append, Option.some_bind, parseJString_jstr,
    Option.some_bind, expectLit_append, Option.some_bind, parseJString_jstr,
    Option.some_bind, expectLit_append]
  rfl

theorem parseItemsAux_dumpItems (users : List UserSummary) :
    ∀ (fuel : Nat) (rest : List Char), users ≠ [] → users.length ≤ fuel →
      parseItemsAux fuel (dumpItems users ++ ('\n' :: ']' :: rest)) =
        some (users, rest) := by
  induction users with
  | nil => intro _ _ hne _; exact absurd rfl hne
  | cons u us ih =>
    intro fuel rest _ hlen
    cases fuel with
    | zero => simp at hlen
    | succ f =>
      cases us with
      | nil =>
        show parseItemsAux (f + 1) (dumpUser u ++ ('\n' :: ']' :: rest)) = _
        simp only [parseItemsAux]
        rw [parseUserObj_dumpUser, Option.some_bind]
        rfl
      | cons v vs =>
        show parseItemsAux (f + 1)
            ((dumpUser u ++ ',' :: '\n' :: dumpItems (v :: vs)) ++
              ('\n' :: ']' :: rest)) = _
        simp only [parseItemsAux]
        rw [List.append_assoc, parseUserObj_dumpUser, Option.some_bind]
        show (parseItemsAux f (dumpItems (v :: vs) ++ ('\n' :: ']' :: rest))).map
            (fun q => (u :: q.1, q.2)) = _
        rw [ih f rest (by simp) (by simpa using Nat.le_of_succ_le_succ hlen)]
        rfl

/-- `json.load ∘ json.dump` is the identity on the summary list: the
byte-for-byte snapshot round trip. -/
theorem parseUsers_serializeUsers (users : List UserSummary) :
    parseUsers (serializeUsers users) = some users := by
  cases users with
  | nil => rfl
  | cons u us =>
    show parseUsers (String.mk ('[' :: '\n' :: (dumpItems (u :: us) ++ ['\n', ']']))) = _
    unfold parseUsers
    rw [toList_mk]
    show (parseItemsAux (dumpItems (u :: us) ++ ['\n', ']']).length
        (dumpItems (u :: us) ++ ['\n', ']'])).bind _ = _
    have hlen : (u :: us).length ≤ (dumpItems (u :: us) ++ ['\n', ']']).length := by
      induction us generalizing u with
      | nil =>
        show 1 ≤ (dumpUser u ++ ['\n', ']']).length
        simp [dumpUser, objHead]
      | cons v vs ihv =>
        show (v :: vs).length + 1 ≤
          ((dumpUser u ++ ',' :: '\n' :: dumpItems (v :: vs)) ++ ['\n', ']']).length
        have hv := ihv v
        simp [dumpUser, objHead] at hv ⊢
        omega
    have h := parseItemsAux_dumpItems (u :: us)
      (dumpItems (u :: us) ++ ['\n', ']']).length [] (by simp) hlen
    rw [show dumpItems (u :: us) ++ ('\n' :: ']' :: []) =
        dumpItems (u :: us) ++ ['\n', ']'] from rfl] at h
    rw [h]
    rfl

/-- C8: with a snapshot present the deserialized contents are used verbatim
and the listing endpoint is never invoked (the result does not depend on the
remote at all, and the fetch flag is `false`); and re-running on the snapshot
a previous run serialized yields exactly the original summaries —
serialize-then-deserialize is the identity. -/
theorem c8_snapshot_verbatim_roundtrip (users : List UserSummary) (s : String)
    (oracle oracle2 : Nat → Nat → ListingResp) (fuel fuel2 : Nat) :
    loadOrFetch (some s) oracle fuel = loadOrFetch (some s) oracle2 fuel2 ∧
    (loadOrFetch (some s) oracle fuel).2 = false ∧
    parseUsers (serializeUsers users) = some users ∧
    loadOrFetch (some (serializeUsers users)) oracle fuel =
      (some (.ok users), false) := by
  refine ⟨rfl, rfl, parseUsers_serializeUsers users, ?_⟩
  show (some (match parseUsers (serializeUsers users) with
    | some users => Except.ok users
    | none => Except.error "JSONDecodeError: snapshot"), false) =
    (some (Except.ok users), false)
  rw [parseUsers_serializeUsers users]

end DiscourseCollector
